import Mathlib

/-!
Verification of the YTM (yield-to-maturity) kernel of the Indian G-Sec
yield analyzer (`src/app.py`).

The kernel is the function `calculate_ytm(price, coupon_rate, years,
face_value=100)` together with its inner closure `bond_price(y)`:

* `periods = int(round(years * 2))`; if `price <= 0 or periods <= 0`
  the function returns `np.nan`;
* `coupon = (coupon_rate / 2) * face_value`;
* `bond_price(y) = sum(coupon / (1 + y/2)**t for t in range(1, periods+1))
                 + face_value / (1 + y/2)**periods`;
* bisection: `low, high = 0.0001, 0.20`; 100 iterations of
  `mid = (low + high)/2; if bond_price(mid) > price: low = mid else high = mid`;
* returns `mid * 100` (the `mid` of the last iteration).

Embedding conventions: Python IEEE-754 doubles are embedded as exact
rationals (ℚ); the claims under scrutiny use tolerances that are many
orders of magnitude above double rounding error, so the exact-rational
idealization is the intended reading.  `np.nan`, the single failure
marker the source returns, is embedded as `Option.none`.  Python's
`round` is banker's rounding (round-half-to-even), embedded exactly by
`pyRound` below.
-/

namespace Gsec

/-- Python's `round` on a real value: round-half-to-even (banker's
rounding), as used by `int(round(years * 2))` in `calculate_ytm`. -/
def pyRound (q : ℚ) : ℤ :=
  if q - ⌊q⌋ < 1/2 then ⌊q⌋
  else if 1/2 < q - ⌊q⌋ then ⌊q⌋ + 1
  else if ⌊q⌋ % 2 = 0 then ⌊q⌋ else ⌊q⌋ + 1

/-- Embedding of the inner closure `bond_price(y)` of `calculate_ytm`
(src/app.py lines 107-111): present value of `periods` semi-annual
coupons of size `coupon` plus the face value, discounted at annual
yield `y` with semi-annual compounding.  The Python sum runs over
`t in range(1, periods+1)`; here `t` runs over `Finset.range periods`
with exponent `t + 1`. -/
def bond_price (coupon face_value : ℚ) (periods : ℕ) (y : ℚ) : ℚ :=
  (∑ t ∈ Finset.range periods, coupon / (1 + y / 2) ^ (t + 1))
    + face_value / (1 + y / 2) ^ periods

/-- State `(low, high, mid)` of the bisection loop of `calculate_ytm`
(src/app.py lines 113-119) after `n` iterations.  Before the first
iteration Python has `low, high = 0.0001, 0.20` and `mid` unassigned;
the `0` in the start state is a sentinel that is never returned because
the loop always runs 100 > 0 times. -/
def bisect_loop (f : ℚ → ℚ) (price : ℚ) : ℕ → ℚ × ℚ × ℚ
  | 0 => (1/10000, 1/5, 0)
  | n + 1 =>
      let s := bisect_loop f price n
      let mid := (s.1 + s.2.1) / 2
      if f mid > price then (mid, s.2.1, mid) else (s.1, mid, mid)

/-- Embedding of `calculate_ytm` (src/app.py lines 100-121).  Returns
`none` where the source returns `np.nan`, otherwise `some` of the final
`mid * 100`. -/
def calculate_ytm (price coupon_rate years face_value : ℚ) : Option ℚ :=
  let periods : ℤ := pyRound (years * 2)
  if price ≤ 0 ∨ periods ≤ 0 then none
  else
    let coupon := coupon_rate / 2 * face_value
    some ((bisect_loop (bond_price coupon face_value periods.toNat) price 100).2.2 * 100)

/-! ### Basic facts about `bond_price` -/

lemma bond_price_pos {coupon face_value : ℚ} (n : ℕ) {y : ℚ}
    (hy : -2 < y) (hc : 0 ≤ coupon) (hf : 0 < face_value) :
    0 < bond_price coupon face_value n y := by
  have hq : 0 < 1 + y / 2 := by linarith
  refine add_pos_of_nonneg_of_pos ?_ (div_pos hf (pow_pos hq n))
  exact Finset.sum_nonneg fun t _ => div_nonneg hc (pow_pos hq (t + 1)).le

/-- `bond_price` is strictly decreasing in the trial yield on `(-2, ∞)`
whenever the coupon is non-negative, the face value positive and there
is at least one period. -/
lemma bond_price_strict_anti {coupon face_value : ℚ} {n : ℕ} {y1 y2 : ℚ}
    (hy1 : -2 < y1) (h12 : y1 < y2) (hc : 0 ≤ coupon) (hf : 0 < face_value)
    (hn : 1 ≤ n) :
    bond_price coupon face_value n y2 < bond_price coupon face_value n y1 := by
  have ha : 0 < 1 + y1 / 2 := by linarith
  have hab : 1 + y1 / 2 < 1 + y2 / 2 := by linarith
  unfold bond_price
  refine add_lt_add_of_le_of_lt (Finset.sum_le_sum fun t _ => ?_) ?_
  · exact div_le_div_of_nonneg_left hc (pow_pos ha (t + 1))
      (pow_le_pow_left₀ ha.le hab.le (t + 1))
  · exact div_lt_div_of_pos_left hf (pow_pos ha n)
      (pow_lt_pow_left₀ hab ha.le (Nat.one_le_iff_ne_zero.mp hn))

/-- Weak form: non-increasing on `(-2, ∞)` (no period-count hypothesis). -/
lemma bond_price_anti {coupon face_value : ℚ} {n : ℕ} {y1 y2 : ℚ}
    (hy1 : -2 < y1) (h12 : y1 ≤ y2) (hc : 0 ≤ coupon) (hf : 0 ≤ face_value) :
    bond_price coupon face_value n y2 ≤ bond_price coupon face_value n y1 := by
  have ha : 0 < 1 + y1 / 2 := by linarith
  have hab : 1 + y1 / 2 ≤ 1 + y2 / 2 := by linarith
  unfold bond_price
  refine add_le_add (Finset.sum_le_sum fun t _ => ?_) ?_
  · exact div_le_div_of_nonneg_left hc (pow_pos ha (t + 1))
      (pow_le_pow_left₀ ha.le hab (t + 1))
  · exact div_le_div_of_nonneg_left hf (pow_pos ha n)
      (pow_le_pow_left₀ ha.le hab n)

/-! ### Basic facts about the bisection loop -/

/-- One-step unfolding of the loop. -/
lemma bisect_loop_succ (f : ℚ → ℚ) (price : ℚ) (n : ℕ) :
    bisect_loop f price (n + 1) =
      if f (((bisect_loop f price n).1 + (bisect_loop f price n).2.1) / 2) > price
      then (((bisect_loop f price n).1 + (bisect_loop f price n).2.1) / 2,
            (bisect_loop f price n).2.1,
            ((bisect_loop f price n).1 + (bisect_loop f price n).2.1) / 2)
      else ((bisect_loop f price n).1,
            ((bisect_loop f price n).1 + (bisect_loop f price n).2.1) / 2,
            ((bisect_loop f price n).1 + (bisect_loop f price n).2.1) / 2) := rfl

lemma bisect_lo_lt_hi (f : ℚ → ℚ) (price : ℚ) :
    ∀ n, (bisect_loop f price n).1 < (bisect_loop f price n).2.1 := by
  intro n
  induction n with
  | zero => norm_num [bisect_loop]
  | succ n ih =>
      rw [bisect_loop_succ]
      split
      · dsimp only; linarith
      · dsimp only; linarith

lemma bisect_lo_le_succ (f : ℚ → ℚ) (price : ℚ) (n : ℕ) :
    (bisect_loop f price n).1 ≤ (bisect_loop f price (n + 1)).1 := by
  have h := bisect_lo_lt_hi f price n
  rw [bisect_loop_succ]
  split
  · dsimp only; linarith
  · dsimp only; exact le_refl _

lemma bisect_hi_succ_le (f : ℚ → ℚ) (price : ℚ) (n : ℕ) :
    (bisect_loop f price (n + 1)).2.1 ≤ (bisect_loop f price n).2.1 := by
  have h := bisect_lo_lt_hi f price n
  rw [bisect_loop_succ]
  split
  · dsimp only; exact le_refl _
  · dsimp only; linarith

lemma bisect_lo_mono (f : ℚ → ℚ) (price : ℚ) {m n : ℕ} (hmn : m ≤ n) :
    (bisect_loop f price m).1 ≤ (bisect_loop f price n).1 := by
  induction n, hmn using Nat.le_induction with
  | base => exact le_refl _
  | succ n hmn ih => exact ih.trans (bisect_lo_le_succ f price n)

lemma bisect_hi_anti (f : ℚ → ℚ) (price : ℚ) {m n : ℕ} (hmn : m ≤ n) :
    (bisect_loop f price n).2.1 ≤ (bisect_loop f price m).2.1 := by
  induction n, hmn using Nat.le_induction with
  | base => exact le_refl _
  | succ n hmn ih => exact (bisect_hi_succ_le f price n).trans ih

lemma bisect_lo_ge (f : ℚ → ℚ) (price : ℚ) (n : ℕ) :
    1/10000 ≤ (bisect_loop f price n).1 := by
  have h := bisect_lo_mono f price (Nat.zero_le n)
  simpa [bisect_loop] using h

lemma bisect_hi_le (f : ℚ → ℚ) (price : ℚ) (n : ℕ) :
    (bisect_loop f price n).2.1 ≤ 1/5 := by
  have h := bisect_hi_anti f price (Nat.zero_le n)
  simpa [bisect_loop] using h

/-- The `mid` recorded after iteration `n + 1` is the midpoint of the
bracket before that iteration. -/
lemma bisect_mid_succ (f : ℚ → ℚ) (price : ℚ) (n : ℕ) :
    (bisect_loop f price (n + 1)).2.2 =
      ((bisect_loop f price n).1 + (bisect_loop f price n).2.1) / 2 := by
  rw [bisect_loop_succ]
  split <;> rfl

lemma bisect_mid_succ_gt_lo (f : ℚ → ℚ) (price : ℚ) (n : ℕ) :
    (bisect_loop f price n).1 < (bisect_loop f price (n + 1)).2.2 := by
  rw [bisect_mid_succ]
  have h := bisect_lo_lt_hi f price n
  linarith

lemma bisect_mid_succ_lt_hi (f : ℚ → ℚ) (price : ℚ) (n : ℕ) :
    (bisect_loop f price (n + 1)).2.2 < (bisect_loop f price n).2.1 := by
  rw [bisect_mid_succ]
  have h := bisect_lo_lt_hi f price n
  linarith

/-- The final `mid` (after 100 iterations) lies strictly inside every
earlier bracket. -/
lemma bisect_mid100_bounds (f : ℚ → ℚ) (price : ℚ) {k : ℕ} (hk : k ≤ 99) :
    (bisect_loop f price k).1 < (bisect_loop f price 100).2.2 ∧
      (bisect_loop f price 100).2.2 < (bisect_loop f price k).2.1 := by
  constructor
  · exact lt_of_le_of_lt (bisect_lo_mono f price hk) (bisect_mid_succ_gt_lo f price 99)
  · exact lt_of_lt_of_le (bisect_mid_succ_lt_hi f price 99) (bisect_hi_anti f price hk)

/-- Width of the bracket after `n` iterations. -/
lemma bisect_width (f : ℚ → ℚ) (price : ℚ) :
    ∀ n, (bisect_loop f price n).2.1 - (bisect_loop f price n).1
      = (1999/10000) / 2 ^ n := by
  intro n
  induction n with
  | zero => norm_num [bisect_loop]
  | succ n ih =>
      rw [bisect_loop_succ]
      split
      · dsimp only
        have h2 : (bisect_loop f price n).2.1
              - ((bisect_loop f price n).1 + (bisect_loop f price n).2.1) / 2
            = ((bisect_loop f price n).2.1 - (bisect_loop f price n).1) / 2 := by
          ring
        rw [h2, ih, pow_succ]
        ring
      · dsimp only
        have h2 : ((bisect_loop f price n).1 + (bisect_loop f price n).2.1) / 2
              - (bisect_loop f price n).1
            = ((bisect_loop f price n).2.1 - (bisect_loop f price n).1) / 2 := by
          ring
        rw [h2, ih, pow_succ]
        ring

/-- If `f` is strictly decreasing on the initial bracket and
`f y0 = price` for some `y0` inside it, the bracket keeps `y0`. -/
lemma bisect_keeps_root (f : ℚ → ℚ) (price y0 : ℚ)
    (hf : ∀ a b : ℚ, 1/10000 ≤ a → a < b → b ≤ 1/5 → f b < f a)
    (hy : f y0 = price) (h1 : 1/10000 ≤ y0) (h2 : y0 ≤ 1/5) :
    ∀ n, (bisect_loop f price n).1 ≤ y0 ∧ y0 ≤ (bisect_loop f price n).2.1 := by
  intro n
  induction n with
  | zero => exact ⟨by norm_num [bisect_loop, h1], by norm_num [bisect_loop, h2]⟩
  | succ n ih =>
      obtain ⟨hlo, hhi⟩ := ih
      have hlt := bisect_lo_lt_hi f price n
      have hge := bisect_lo_ge f price n
      have hle := bisect_hi_le f price n
      set lo := (bisect_loop f price n).1 with hlo_def
      set hi := (bisect_loop f price n).2.1 with hhi_def
      have hmid_ge : 1/10000 ≤ (lo + hi) / 2 := by linarith
      have hmid_le : (lo + hi) / 2 ≤ 1/5 := by linarith
      rw [bisect_loop_succ]
      split
      · -- f mid > price: the root is strictly above mid
        rename_i hcmp
        dsimp only
        refine ⟨?_, hhi⟩
        by_contra hcon
        push_neg at hcon
        rcases lt_or_eq_of_le hcon.le with h | h
        · have := hf y0 ((lo + hi) / 2) h1 h hmid_le
          rw [hy] at this
          exact absurd hcmp (not_lt.mpr this.le)
        · rw [← h, hy] at hcmp
          exact lt_irrefl price hcmp
      · -- f mid ≤ price: the root is at or below mid
        rename_i hcmp
        dsimp only
        refine ⟨hlo, ?_⟩
        by_contra hcon
        push_neg at hcon
        have := hf ((lo + hi) / 2) y0 hmid_ge hcon h2
        rw [hy] at this
        exact absurd (not_lt.mpr (le_of_not_lt hcmp)) (not_not.mpr this)

/-! ### Concrete bisection runs (exact rational arithmetic) -/

lemma bisect_step_gt {f : ℚ → ℚ} {price lo hi m mid : ℚ} {n : ℕ}
    (h : bisect_loop f price n = (lo, hi, m)) (hmid : (lo + hi) / 2 = mid)
    (hgt : f mid > price) :
    bisect_loop f price (n + 1) = (mid, hi, mid) := by
  rw [bisect_loop_succ, h]
  dsimp only
  rw [hmid, if_pos hgt]

lemma bisect_step_le {f : ℚ → ℚ} {price lo hi m mid : ℚ} {n : ℕ}
    (h : bisect_loop f price n = (lo, hi, m)) (hmid : (lo + hi) / 2 = mid)
    (hle : f mid ≤ price) :
    bisect_loop f price (n + 1) = (lo, mid, mid) := by
  rw [bisect_loop_succ, h]
  dsimp only
  rw [hmid, if_neg (not_lt.mpr hle)]

/-- Exact bracket after 14 bisection iterations for the end-to-end
scenario (coupon 3.56, 20 periods, price 99.50). -/
lemma bracket14_scenario :
    bisect_loop (bond_price (89/25) 100 20) (199/2) 14
      = (11780499/163840000, 5891249/81920000, 11780499/163840000) := by
  have h0 : bisect_loop (bond_price (89/25) 100 20) (199/2) 0 = (1/10000, 1/5, 0) := rfl
  have h1 : bisect_loop (bond_price (89/25) 100 20) (199/2) 1 = (1/10000, 2001/20000, 2001/20000) :=
    bisect_step_le h0 (by norm_num) (by norm_num [bond_price, Finset.sum_range_succ])
  have h2 : bisect_loop (bond_price (89/25) 100 20) (199/2) 2 = (2003/40000, 2001/20000, 2003/40000) :=
    bisect_step_gt h1 (by norm_num) (by norm_num [bond_price, Finset.sum_range_succ])
  have h3 : bisect_loop (bond_price (89/25) 100 20) (199/2) 3 = (2003/40000, 1201/16000, 1201/16000) :=
    bisect_step_le h2 (by norm_num) (by norm_num [bond_price, Finset.sum_range_succ])
  have h4 : bisect_loop (bond_price (89/25) 100 20) (199/2) 4 = (10011/160000, 1201/16000, 10011/160000) :=
    bisect_step_gt h3 (by norm_num) (by norm_num [bond_price, Finset.sum_range_succ])
  have h5 : bisect_loop (bond_price (89/25) 100 20) (199/2) 5 = (22021/320000, 1201/16000, 22021/320000) :=
    bisect_step_gt h4 (by norm_num) (by norm_num [bond_price, Finset.sum_range_succ])
  have h6 : bisect_loop (bond_price (89/25) 100 20) (199/2) 6 = (22021/320000, 46041/640000, 46041/640000) :=
    bisect_step_le h5 (by norm_num) (by norm_num [bond_price, Finset.sum_range_succ])
  have h7 : bisect_loop (bond_price (89/25) 100 20) (199/2) 7 = (90083/1280000, 46041/640000, 90083/1280000) :=
    bisect_step_gt h6 (by norm_num) (by norm_num [bond_price, Finset.sum_range_succ])
  have h8 : bisect_loop (bond_price (89/25) 100 20) (199/2) 8 = (36433/512000, 46041/640000, 36433/512000) :=
    bisect_step_gt h7 (by norm_num) (by norm_num [bond_price, Finset.sum_range_succ])
  have h9 : bisect_loop (bond_price (89/25) 100 20) (199/2) 9 = (366329/5120000, 46041/640000, 366329/5120000) :=
    bisect_step_gt h8 (by norm_num) (by norm_num [bond_price, Finset.sum_range_succ])
  have h10 : bisect_loop (bond_price (89/25) 100 20) (199/2) 10 = (734657/10240000, 46041/640000, 734657/10240000) :=
    bisect_step_gt h9 (by norm_num) (by norm_num [bond_price, Finset.sum_range_succ])
  have h11 : bisect_loop (bond_price (89/25) 100 20) (199/2) 11 = (1471313/20480000, 46041/640000, 1471313/20480000) :=
    bisect_step_gt h10 (by norm_num) (by norm_num [bond_price, Finset.sum_range_succ])
  have h12 : bisect_loop (bond_price (89/25) 100 20) (199/2) 12 = (23557/327680, 46041/640000, 23557/327680) :=
    bisect_step_gt h11 (by norm_num) (by norm_num [bond_price, Finset.sum_range_succ])
  have h13 : bisect_loop (bond_price (89/25) 100 20) (199/2) 13 = (23557/327680, 5891249/81920000, 5891249/81920000) :=
    bisect_step_le h12 (by norm_num) (by norm_num [bond_price, Finset.sum_range_succ])
  have h14 : bisect_loop (bond_price (89/25) 100 20) (199/2) 14 = (11780499/163840000, 5891249/81920000, 11780499/163840000) :=
    bisect_step_gt h13 (by norm_num) (by norm_num [bond_price, Finset.sum_range_succ])
  exact h14

/-- Exact bracket after 8 bisection iterations for the deep-discount
(out-of-bracket) input: coupon 3.5, 10 periods, price 50. -/
lemma bracket8_distressed :
    bisect_loop (bond_price (7/2) 100 10) 50 8
      = (510001/2560000, 1/5, 510001/2560000) := by
  have h0 : bisect_loop (bond_price (7/2) 100 10) (50) 0 = (1/10000, 1/5, 0) := rfl
  have h1 : bisect_loop (bond_price (7/2) 100 10) (50) 1 = (2001/20000, 1/5, 2001/20000) :=
    bisect_step_gt h0 (by norm_num) (by norm_num [bond_price, Finset.sum_range_succ])
  have h2 : bisect_loop (bond_price (7/2) 100 10) (50) 2 = (6001/40000, 1/5, 6001/40000) :=
    bisect_step_gt h1 (by norm_num) (by norm_num [bond_price, Finset.sum_range_succ])
  have h3 : bisect_loop (bond_price (7/2) 100 10) (50) 3 = (14001/80000, 1/5, 14001/80000) :=
    bisect_step_gt h2 (by norm_num) (by norm_num [bond_price, Finset.sum_range_succ])
  have h4 : bisect_loop (bond_price (7/2) 100 10) (50) 4 = (30001/160000, 1/5, 30001/160000) :=
    bisect_step_gt h3 (by norm_num) (by norm_num [bond_price, Finset.sum_range_succ])
  have h5 : bisect_loop (bond_price (7/2) 100 10) (50) 5 = (62001/320000, 1/5, 62001/320000) :=
    bisect_step_gt h4 (by norm_num) (by norm_num [bond_price, Finset.sum_range_succ])
  have h6 : bisect_loop (bond_price (7/2) 100 10) (50) 6 = (126001/640000, 1/5, 126001/640000) :=
    bisect_step_gt h5 (by norm_num) (by norm_num [bond_price, Finset.sum_range_succ])
  have h7 : bisect_loop (bond_price (7/2) 100 10) (50) 7 = (254001/1280000, 1/5, 254001/1280000) :=
    bisect_step_gt h6 (by norm_num) (by norm_num [bond_price, Finset.sum_range_succ])
  have h8 : bisect_loop (bond_price (7/2) 100 10) (50) 8 = (510001/2560000, 1/5, 510001/2560000) :=
    bisect_step_gt h7 (by norm_num) (by norm_num [bond_price, Finset.sum_range_succ])
  exact h8

/-! ### Reduction of `calculate_ytm` on the two paths -/

lemma calculate_ytm_none {price coupon_rate years face_value : ℚ}
    (h : price ≤ 0 ∨ pyRound (years * 2) ≤ 0) :
    calculate_ytm price coupon_rate years face_value = none := by
  simp only [calculate_ytm]
  rw [if_pos h]

lemma calculate_ytm_eq {price coupon_rate years face_value : ℚ}
    (hp : 0 < price) (hper : 0 < pyRound (years * 2)) :
    calculate_ytm price coupon_rate years face_value
      = some ((bisect_loop (bond_price (coupon_rate / 2 * face_value) face_value
          (pyRound (years * 2)).toNat) price 100).2.2 * 100) := by
  have hcond : ¬(price ≤ 0 ∨ pyRound (years * 2) ≤ 0) := by
    push_neg
    exact ⟨hp, hper⟩
  simp only [calculate_ytm]
  rw [if_neg hcond]

/-- The par identity holds for every period count (including 0) as soon
as the discount base is non-zero. -/
lemma bond_price_par (r : ℚ) (hq : (1 : ℚ) + r / 2 ≠ 0) :
    ∀ n : ℕ, bond_price (r / 2 * 100) 100 n r = 100 := by
  intro n
  induction n with
  | zero => simp [bond_price]
  | succ n ih =>
      unfold bond_price at ih ⊢
      rw [Finset.sum_range_succ]
      have hpow : (1 + r / 2) ^ n ≠ 0 := pow_ne_zero _ hq
      have key : r / 2 * 100 / (1 + r / 2) ^ (n + 1) + 100 / (1 + r / 2) ^ (n + 1)
          = 100 / (1 + r / 2) ^ n := by
        rw [div_add_div_same, pow_succ,
          div_eq_div_iff (mul_ne_zero hpow hq) hpow]
        ring
      rw [add_assoc, key]
      exact ih

/-! ### Claims -/

/-- Claim C3 (confirmed): for every fixed schedule with at least one
period and a non-negative coupon, `price_at_yield` (the code's
`bond_price` with face value 100) is strictly decreasing in the trial
yield on the domain `y > -2`. -/
theorem C3_price_at_yield_strict_decreasing (coupon : ℚ) (n : ℕ)
    (hn : 1 ≤ n) (hc : 0 ≤ coupon) (y1 y2 : ℚ) (h1 : -2 < y1) (h12 : y1 < y2) :
    bond_price coupon 100 n y2 < bond_price coupon 100 n y1 :=
  bond_price_strict_anti h1 h12 hc (by norm_num) hn

/-- Witness for C3 at `coupon = 3.5`, `n = 10`, `y1 = 0`, `y2 = 1/10`. -/
theorem C3_witness :
    1 ≤ 10 ∧ (0 : ℚ) ≤ 7/2 ∧ (-2 : ℚ) < 0 ∧ (0 : ℚ) < 1/10 ∧
      bond_price (7/2) 100 10 (1/10) < bond_price (7/2) 100 10 0 :=
  ⟨by norm_num, by norm_num, by norm_num, by norm_num,
    C3_price_at_yield_strict_decreasing (7/2) 10 (by norm_num) (by norm_num)
      0 (1/10) (by norm_num) (by norm_num)⟩

/-- Claim C4 (confirmed): a par bond prices at exactly 100: evaluating
the pricing function at trial yield equal to the coupon rate, with
`coupon_per_period = (coupon_rate / 2) * 100` and face value 100,
returns exactly 100 for every `period_count ≥ 1` and every
`coupon_rate > -2`. -/
theorem C4_par_property (coupon_rate : ℚ) (n : ℕ)
    (_hn : 1 ≤ n) (hr : -2 < coupon_rate) :
    bond_price (coupon_rate / 2 * 100) 100 n coupon_rate = 100 :=
  bond_price_par coupon_rate
    (by have : (0 : ℚ) < 1 + coupon_rate / 2 := by linarith
        exact this.ne') n

/-- Witness for C4 at `coupon_rate = 0.07`, `n = 4`. -/
theorem C4_witness :
    1 ≤ 4 ∧ (-2 : ℚ) < 7/100 ∧
      bond_price (7/100 / 2 * 100) 100 4 (7/100) = 100 :=
  ⟨by norm_num, by norm_num,
    C4_par_property (7/100) 4 (by norm_num) (by norm_num)⟩

/-- Claim C5 counterexample: the claim says a non-positive observed
price produces the tagged failure `Failure::NonPositivePrice` — "not a
silent NaN".  The code returns the single untagged marker `np.nan`
(embedded `none`) on this path, the *same* output it produces for a
non-positive period count, so the failure carries no tag
distinguishing `NonPositivePrice` from `NonPositivePeriods`. -/
theorem C5_counterexample :
    calculate_ytm 0 (7/100) 5 100 = none ∧
      calculate_ytm (-10) (7/100) 5 100 = none ∧
      calculate_ytm 0 (7/100) 5 100 = calculate_ytm 100 (7/100) (1/1000) 100 :=
  ⟨calculate_ytm_none (Or.inl (by norm_num)),
    calculate_ytm_none (Or.inl (by norm_num)),
    (calculate_ytm_none (Or.inl (by norm_num))).trans
      (calculate_ytm_none (Or.inr (by norm_num [pyRound]))).symm⟩

/-- Claim C5 (amended): for every coupon rate and maturity, a zero or
negative observed price makes `calculate_ytm` return its failure marker
`np.nan` (embedded `none`) — no crash and no numeric yield — but the
marker is untagged, not a distinct `Failure::NonPositivePrice`. -/
theorem C5_nonpositive_price (price coupon_rate years : ℚ)
    (hp : price ≤ 0) :
    calculate_ytm price coupon_rate years 100 = none :=
  calculate_ytm_none (Or.inl hp)

/-- Witness for C5 at the claim's two instances `(0, 0.07, 5)` and
`(-10, 0.07, 5)`. -/
theorem C5_witness :
    (0 : ℚ) ≤ 0 ∧ (-10 : ℚ) ≤ 0 ∧
      calculate_ytm 0 (7/100) 5 100 = none ∧
      calculate_ytm (-10) (7/100) 5 100 = none :=
  ⟨by norm_num, by norm_num,
    C5_nonpositive_price 0 (7/100) 5 (by norm_num),
    C5_nonpositive_price (-10) (7/100) 5 (by norm_num)⟩

/-- Claim C6 counterexample: the claim says a non-positive derived
period count produces the tagged failure `Failure::NonPositivePeriods`.
The code returns the single untagged marker `np.nan` (embedded `none`),
identical to its output for a non-positive price, so the failure
carries no tag. -/
theorem C6_counterexample :
    calculate_ytm 100 (7/100) (1/1000) 100 = none ∧
      calculate_ytm 100 (7/100) (1/1000) 100 = calculate_ytm (-10) (7/100) 5 100 :=
  ⟨calculate_ytm_none (Or.inr (by norm_num [pyRound])),
    (calculate_ytm_none (Or.inr (by norm_num [pyRound]))).trans
      (calculate_ytm_none (Or.inl (by norm_num))).symm⟩

/-- Claim C6 (amended): for every positive price and coupon rate, if
`round(years * 2)` is zero or less then `calculate_ytm` returns its
failure marker `np.nan` (embedded `none`) — no crash and no numeric
yield — but the marker is untagged, not a distinct
`Failure::NonPositivePeriods`. -/
theorem C6_nonpositive_periods (price coupon_rate years : ℚ)
    (_hp : 0 < price) (hper : pyRound (years * 2) ≤ 0) :
    calculate_ytm price coupon_rate years 100 = none :=
  calculate_ytm_none (Or.inr hper)

/-- Witness for C6 at the claim's instance `(100, 0.07, 0.001)`:
`round(0.002) = 0`. -/
theorem C6_witness :
    (0 : ℚ) < 100 ∧ pyRound ((1/1000 : ℚ) * 2) ≤ 0 ∧
      calculate_ytm 100 (7/100) (1/1000) 100 = none :=
  ⟨by norm_num, by norm_num [pyRound],
    C6_nonpositive_periods 100 (7/100) (1/1000) (by norm_num) (by norm_num [pyRound])⟩

/-- Claim C9 (confirmed): `calculate_ytm` is deterministic — two calls
with identical inputs return identical outputs.  The embedding is a
pure function of exactly the four parameters the Python function reads
(it touches no global state and performs no I/O), so determinism is
congruence in all four arguments. -/
theorem C9_deterministic (p1 c1 y1 f1 p2 c2 y2 f2 : ℚ)
    (hp : p1 = p2) (hc : c1 = c2) (hy : y1 = y2) (hf : f1 = f2) :
    calculate_ytm p1 c1 y1 f1 = calculate_ytm p2 c2 y2 f2 := by
  rw [hp, hc, hy, hf]

/-- Witness for C9 at two syntactically distinct but equal inputs. -/
theorem C9_witness :
    (199/2 : ℚ) = 995/10 ∧ (7/100 : ℚ) = 14/200 ∧ (5 : ℚ) = 10/2 ∧ (100 : ℚ) = 200/2 ∧
      calculate_ytm (199/2) (7/100) 5 100 = calculate_ytm (995/10) (14/200) (10/2) (200/2) :=
  ⟨by norm_num, by norm_num, by norm_num, by norm_num,
    C9_deterministic (199/2) (7/100) 5 100 (995/10) (14/200) (10/2) (200/2)
      (by norm_num) (by norm_num) (by norm_num) (by norm_num)⟩

/-- Claim C10 (confirmed): on the non-failure path, every bisection
iteration preserves `0.0001 ≤ low < high ≤ 0.20`, and hence the numeric
value `calculate_ytm` returns always lies strictly between 0.01 and
20.0 (percent), whatever the observed price. -/
theorem C10_bracket_invariant (price coupon_rate years : ℚ)
    (hp : 0 < price) (hper : 0 < pyRound (years * 2)) :
    (∀ k, 1/10000 ≤ (bisect_loop (bond_price (coupon_rate / 2 * 100) 100
          (pyRound (years * 2)).toNat) price k).1 ∧
        (bisect_loop (bond_price (coupon_rate / 2 * 100) 100
          (pyRound (years * 2)).toNat) price k).1
          < (bisect_loop (bond_price (coupon_rate / 2 * 100) 100
              (pyRound (years * 2)).toNat) price k).2.1 ∧
        (bisect_loop (bond_price (coupon_rate / 2 * 100) 100
          (pyRound (years * 2)).toNat) price k).2.1 ≤ 1/5) ∧
    ∃ r, calculate_ytm price coupon_rate years 100 = some r ∧ 1/100 < r ∧ r < 20 := by
  constructor
  · intro k
    exact ⟨bisect_lo_ge _ price k, bisect_lo_lt_hi _ price k, bisect_hi_le _ price k⟩
  · rw [calculate_ytm_eq hp hper]
    refine ⟨_, rfl, ?_, ?_⟩
    · have h1 := bisect_mid_succ_gt_lo (bond_price (coupon_rate / 2 * 100) 100
        (pyRound (years * 2)).toNat) price 99
      have h2 := bisect_lo_ge (bond_price (coupon_rate / 2 * 100) 100
        (pyRound (years * 2)).toNat) price 99
      linarith
    · have h1 := bisect_mid_succ_lt_hi (bond_price (coupon_rate / 2 * 100) 100
        (pyRound (years * 2)).toNat) price 99
      have h2 := bisect_hi_le (bond_price (coupon_rate / 2 * 100) 100
        (pyRound (years * 2)).toNat) price 99
      linarith

/-- Witness for C10 at `(price, coupon_rate, years) = (100, 0.07, 5)`. -/
theorem C10_witness :
    (0 : ℚ) < 100 ∧ 0 < pyRound ((5 : ℚ) * 2) ∧
      ∃ r, calculate_ytm 100 (7/100) 5 100 = some r ∧ 1/100 < r ∧ r < 20 :=
  ⟨by norm_num, by norm_num [pyRound],
    (C10_bracket_invariant 100 (7/100) 5 (by norm_num) (by norm_num [pyRound])).2⟩

/-- The bracket evolution exactly as the spec and claim C7 word it:
start from `lo = 0.0001`, `hi = 0.20`; each iteration takes
`mid = (lo + hi) / 2`, then sets `lo = mid` if
`price_at_yield(schedule, mid) > price` and `hi = mid` otherwise.
Written from the claim's words, to be compared with the embedding
`bisect_loop` taken from the source. -/
def spec_bracket (f : ℚ → ℚ) (price : ℚ) : ℕ → ℚ × ℚ
  | 0 => (1/10000, 1/5)
  | n + 1 =>
      let lo := (spec_bracket f price n).1
      let hi := (spec_bracket f price n).2
      let mid := (lo + hi) / 2
      if f mid > price then (mid, hi) else (lo, mid)

/-- The value claim C7 says the solver returns: `mid * 100` where `mid`
is the midpoint taken in the 100th (last) iteration, i.e. the midpoint
of the bracket after 99 iterations. -/
def spec_yield_percent (f : ℚ → ℚ) (price : ℚ) : ℚ :=
  ((spec_bracket f price 99).1 + (spec_bracket f price 99).2) / 2 * 100

/-- One-step unfolding of `spec_bracket`. -/
lemma spec_bracket_succ (f : ℚ → ℚ) (price : ℚ) (n : ℕ) :
    spec_bracket f price (n + 1) =
      if f (((spec_bracket f price n).1 + (spec_bracket f price n).2) / 2) > price
      then (((spec_bracket f price n).1 + (spec_bracket f price n).2) / 2,
            (spec_bracket f price n).2)
      else ((spec_bracket f price n).1,
            ((spec_bracket f price n).1 + (spec_bracket f price n).2) / 2) := rfl

/-- The source loop agrees with the spec-worded bracket evolution. -/
lemma bisect_loop_eq_spec_bracket (f : ℚ → ℚ) (price : ℚ) :
    ∀ n, ((bisect_loop f price n).1, (bisect_loop f price n).2.1)
      = spec_bracket f price n := by
  intro n
  induction n with
  | zero => rfl
  | succ n ih =>
      rw [bisect_loop_succ, spec_bracket_succ, ← ih]
      dsimp only
      by_cases hc : f (((bisect_loop f price n).1 + (bisect_loop f price n).2.1) / 2) > price
      · rw [if_pos hc, if_pos hc]
      · rw [if_neg hc, if_neg hc]

/-- Claim C7 (confirmed): on every call with positive price and at
least one period, `calculate_ytm` performs exactly the bisection the
spec describes — fixed bracket `[0.0001, 0.20]`, 100 iterations of
`mid = (lo + hi)/2` with `lo = mid` when `price_at_yield(mid) > price`
and `hi = mid` otherwise — and returns `mid * 100` for the `mid` of the
last iteration, as captured by the spec-worded `spec_yield_percent`. -/
theorem C7_algorithm_steps (price coupon_rate years : ℚ)
    (hp : 0 < price) (hper : 0 < pyRound (years * 2)) :
    calculate_ytm price coupon_rate years 100
      = some (spec_yield_percent
          (bond_price (coupon_rate / 2 * 100) 100 (pyRound (years * 2)).toNat) price) := by
  rw [calculate_ytm_eq hp hper]
  congr 1
  rw [bisect_mid_succ]
  unfold spec_yield_percent
  rw [← bisect_loop_eq_spec_bracket]

/-- Witness for C7 at `(price, coupon_rate, years) = (100, 0.07, 5)`. -/
theorem C7_witness :
    (0 : ℚ) < 100 ∧ 0 < pyRound ((5 : ℚ) * 2) ∧
      calculate_ytm 100 (7/100) 5 100
        = some (spec_yield_percent
            (bond_price (7/100 / 2 * 100) 100 (pyRound ((5 : ℚ) * 2)).toNat) 100) :=
  ⟨by norm_num, by norm_num [pyRound],
    C7_algorithm_steps 100 (7/100) 5 (by norm_num) (by norm_num [pyRound])⟩

/-- Claim C2 (confirmed): round-trip.  For every yield `y0` in
`[0.0001, 0.20]` and every valid schedule (`period_count ≥ 1`,
non-negative coupon), pricing at `y0` and then solving recovers a
yield percentage within 0.01 percentage points of `y0 * 100`. -/
theorem C2_roundtrip (coupon_rate years y0 : ℚ) (n : ℕ)
    (hn : 1 ≤ n) (hround : pyRound (years * 2) = (n : ℤ)) (hc : 0 ≤ coupon_rate)
    (hy0lo : 1/10000 ≤ y0) (hy0hi : y0 ≤ 1/5) :
    ∃ r, calculate_ytm (bond_price (coupon_rate / 2 * 100) 100 n y0)
        coupon_rate years 100 = some r ∧ |r - y0 * 100| ≤ 1/100 := by
  have hcoup : (0 : ℚ) ≤ coupon_rate / 2 * 100 := by linarith
  have hprice : 0 < bond_price (coupon_rate / 2 * 100) 100 n y0 :=
    bond_price_pos n (by linarith) hcoup (by norm_num)
  have hper : 0 < pyRound (years * 2) := by
    rw [hround]
    exact_mod_cast Nat.lt_of_lt_of_le Nat.zero_lt_one hn
  rw [calculate_ytm_eq hprice hper]
  have htn : (pyRound (years * 2)).toNat = n := by rw [hround]; exact Int.toNat_natCast n
  rw [htn]
  refine ⟨_, rfl, ?_⟩
  set f := bond_price (coupon_rate / 2 * 100) 100 n with hf
  have hanti : ∀ a b : ℚ, 1/10000 ≤ a → a < b → b ≤ 1/5 → f b < f a := by
    intro a b ha hab hb
    exact bond_price_strict_anti (by linarith) hab hcoup (by norm_num) hn
  have hkeep := bisect_keeps_root f (f y0) y0 hanti rfl hy0lo hy0hi 99
  have hw := bisect_width f (f y0) 99
  have hmid := bisect_mid_succ f (f y0) 99
  have hlh := bisect_lo_lt_hi f (f y0) 99
  have hnum : (1999/10000 : ℚ) / 2 ^ 99 * 100 ≤ 1/100 := by norm_num
  rw [abs_le]
  constructor
  · rw [hmid]
    nlinarith [hkeep.1, hkeep.2, hw]
  · rw [hmid]
    nlinarith [hkeep.1, hkeep.2, hw]

/-- Witness for C2 at `coupon_rate = 0.07`, `years = 5` (10 periods),
`y0 = 0.1`. -/
theorem C2_witness :
    1 ≤ 10 ∧ pyRound ((5 : ℚ) * 2) = (10 : ℤ) ∧ (0 : ℚ) ≤ 7/100 ∧
      (1/10000 : ℚ) ≤ 1/10 ∧ (1/10 : ℚ) ≤ 1/5 ∧
      ∃ r, calculate_ytm (bond_price (7/100 / 2 * 100) 100 10 (1/10)) (7/100) 5 100
          = some r ∧ |r - 1/10 * 100| ≤ 1/100 :=
  ⟨by norm_num, by norm_num [pyRound], by norm_num, by norm_num, by norm_num,
    C2_roundtrip (7/100) 5 (1/10) 10 (by norm_num) (by norm_num [pyRound])
      (by norm_num) (by norm_num) (by norm_num)⟩

/-- Claim C8 (confirmed): end-to-end scenario.  For
`coupon_rate = 0.0712`, `years_to_maturity = 9.85`,
`clean_price = 99.50`: the derived period count is
`round(19.7) = 20` and the returned yield percentage lies in
`[7.10, 7.40]`, strictly above the 7.12 coupon. -/
theorem C8_end_to_end :
    pyRound ((197/20 : ℚ) * 2) = 20 ∧
    ∃ r, calculate_ytm (199/2) (89/1250) (197/20) 100 = some r ∧
      71/10 ≤ r ∧ r ≤ 37/5 ∧ 178/25 < r := by
  have hround : pyRound ((197/20 : ℚ) * 2) = 20 := by norm_num [pyRound]
  refine ⟨hround, ?_⟩
  rw [calculate_ytm_eq (by norm_num) (by rw [hround]; norm_num)]
  have hcoup : (89 : ℚ)/1250 / 2 * 100 = 89/25 := by norm_num
  have htn : (pyRound ((197/20 : ℚ) * 2)).toNat = 20 := by rw [hround]; rfl
  rw [hcoup, htn]
  have hb := bisect_mid100_bounds (bond_price (89/25) 100 20) (199/2)
    (show 14 ≤ 99 by norm_num)
  rw [bracket14_scenario] at hb
  dsimp only at hb
  obtain ⟨hb1, hb2⟩ := hb
  refine ⟨_, rfl, ?_, ?_, ?_⟩
  · linarith
  · linarith
  · linarith

/-- Claim C1 (code bug, evaluated): the claim requires
`Failure::NoConvergence` whenever the implied yield lies outside
`[0.0001, 0.20]`.  The code has no such check.  At
`(price, coupon_rate, years) = (50, 0.07, 5)` the claim's own
out-of-bracket test fires — the model price at the bracket top exceeds
the observed price (`price_at_yield(0.20) > 50`, implied yield above
20%) — yet `calculate_ytm` returns a boundary-adjacent numeric yield
strictly between 19 and 20 percent instead of a failure. -/
theorem C1_out_of_bracket_code_eval :
    bond_price (7/100 / 2 * 100) 100 10 (1/5) > 50 ∧
    ∃ r, calculate_ytm 50 (7/100) 5 100 = some r ∧ 19 < r ∧ r < 20 := by
  constructor
  · norm_num [bond_price, Finset.sum_range_succ]
  · have hround : pyRound ((5 : ℚ) * 2) = 10 := by norm_num [pyRound]
    rw [calculate_ytm_eq (by norm_num) (by rw [hround]; norm_num)]
    have hcoup : (7 : ℚ)/100 / 2 * 100 = 7/2 := by norm_num
    have htn : (pyRound ((5 : ℚ) * 2)).toNat = 10 := by rw [hround]; rfl
    rw [hcoup, htn]
    have hb := bisect_mid100_bounds (bond_price (7/2) 100 10) 50
      (show 8 ≤ 99 by norm_num)
    rw [bracket8_distressed] at hb
    dsimp only at hb
    obtain ⟨hb1, hb2⟩ := hb
    refine ⟨_, rfl, ?_, ?_⟩
    · linarith
    · linarith

end Gsec
